import Mathlib

set_option maxRecDepth 16384
set_option maxHeartbeats 1000000

/-!
Verification development for the domain-to-company-legal-name repository.

The Python sources are shallowly embedded below:
  * `src/server/fastapi_processor.py` (class `EntityExtractor`) — HTML entity
    extraction.  Python strings are embedded as `List Char` (`PyStr`), which
    matches Python's character-based `len`/slicing semantics.  The
    BeautifulSoup parse of the raw HTML is the modelling boundary: a parsed
    document is a `Soup` value (title text, meta tags, script elements,
    visible text); `extract_from_html` is embedded over `Soup`.
  * CPython's `list(set(xs))` has an unspecified, hash-seed-dependent element
    order.  It is embedded as a parameter `setOrder` together with the
    predicate `SetOrderOK` stating exactly what CPython guarantees
    (no duplicates, same membership).
  * `src/analytics_server.py` (`analyze_geographic_bias`).
  * `src/domain_hash_service.py` (`generate_domain_hash` with a full MD5
    implementation, and the best-record aggregation of `get_domain_hash`).
  * `src/server/services/langextractService.py` (`extract_entities` response
    handling).
-/

/-! ## Python string primitives (`str` as `List Char`) -/

abbrev PyStr := List Char

/-- ASCII whitespace characters matched by Python's `\s` / `str.split()` /
`str.strip()` (all inputs considered in this development are ASCII). -/
def pyIsWs (c : Char) : Bool :=
  c = ' ' || c = Char.ofNat 9 || c = Char.ofNat 10 || c = Char.ofNat 13 ||
  c = Char.ofNat 11 || c = Char.ofNat 12

def pyIsDigit (c : Char) : Bool := '0' ≤ c && c ≤ '9'

def pyIsAsciiAlpha (c : Char) : Bool :=
  ('A' ≤ c && c ≤ 'Z') || ('a' ≤ c && c ≤ 'z')

def pyIsAlnum (c : Char) : Bool := pyIsAsciiAlpha c || pyIsDigit c

/-- Python's `\w` word-character class (ASCII part). -/
def pyIsWord (c : Char) : Bool := pyIsAlnum c || c = '_'

/-- Python `str.lower()` (ASCII case folding; all concrete inputs are ASCII). -/
def pyLower (s : PyStr) : PyStr := s.map Char.toLower

/-- Python `str.strip()`. -/
def pyStrip (s : PyStr) : PyStr :=
  ((s.dropWhile pyIsWs).reverse.dropWhile pyIsWs).reverse

/-- Python `str.split()` with no separator: split on whitespace runs, no empties. -/
def pySplitWsAux (cur : PyStr) : PyStr → List PyStr
  | [] => if cur = [] then [] else [cur.reverse]
  | c :: cs =>
    if pyIsWs c then
      if cur = [] then pySplitWsAux [] cs else cur.reverse :: pySplitWsAux [] cs
    else pySplitWsAux (c :: cur) cs

def pySplitWs (s : PyStr) : List PyStr := pySplitWsAux [] s

/-- Python `' '.join(parts)`. -/
def joinWithSpace : List PyStr → PyStr
  | [] => []
  | [w] => w
  | w :: ws => w ++ ' ' :: joinWithSpace ws

/-- Python `' '.join(s.split())`: collapse internal whitespace, strip both ends. -/
def collapseWs (s : PyStr) : PyStr := joinWithSpace (pySplitWs s)

/-- Case-insensitive "`s` starts with `p`" (`s.lower().startswith(p.lower())`). -/
def ciHasPre (p s : PyStr) : Bool := pyLower (s.take p.length) = pyLower p

/-- Exact "`s` ends with `suf`" (both assumed already lower-cased where the
source lower-cases). -/
def endsWithP (suf s : PyStr) : Bool := (s.reverse.take suf.length) = suf.reverse

/-- Remove the maximal trailing run of characters satisfying `p`
(Python `re.sub(r'[...]+$', '', s)`). -/
def dropTrailingRun (p : Char → Bool) (s : PyStr) : PyStr :=
  (s.reverse.dropWhile p).reverse

/-! ## CPython `list(set(xs))` order oracle -/

/-- What CPython guarantees about `list(set(xs))`: the result has no
duplicates and exactly the members of `xs`.  The element order is
hash-seed-dependent and is NOT guaranteed to be the order of first
occurrence in `xs`. -/
def SetOrderOK (f : List PyStr → List PyStr) : Prop :=
  ∀ xs : List PyStr, (f xs).Nodup ∧ ∀ a, a ∈ f xs ↔ a ∈ xs

/-- One realizable `list(set(xs))` order: first-occurrence order. -/
def dedupKeepFirstAux (seen : List PyStr) : List PyStr → List PyStr
  | [] => []
  | x :: xs =>
    if x ∈ seen then dedupKeepFirstAux seen xs
    else x :: dedupKeepFirstAux (x :: seen) xs

def pySetKeepFirst (xs : List PyStr) : List PyStr := dedupKeepFirstAux [] xs

/-- Another realizable `list(set(xs))` order: reversed first-occurrence
order (set iteration order depends on the hash seed, so for distinct
strings any permutation can occur across CPython runs). -/
def pySetRev (xs : List PyStr) : List PyStr := (pySetKeepFirst xs).reverse

theorem dedupKeepFirstAux_mem (xs : List PyStr) :
    ∀ seen a, a ∈ dedupKeepFirstAux seen xs ↔ a ∈ xs ∧ a ∉ seen := by
  induction xs with
  | nil => intro seen a; simp [dedupKeepFirstAux]
  | cons x xs ih =>
    intro seen a
    by_cases hx : x ∈ seen
    · simp only [dedupKeepFirstAux, if_pos hx, ih, List.mem_cons]
      constructor
      · rintro ⟨h1, h2⟩
        exact ⟨Or.inr h1, h2⟩
      · rintro ⟨h1 | h1, h2⟩
        · exact absurd (h1 ▸ hx) h2
        · exact ⟨h1, h2⟩
    · simp only [dedupKeepFirstAux, if_neg hx, ih, List.mem_cons]
      constructor
      · rintro (rfl | ⟨h1, h2⟩)
        · exact ⟨Or.inl rfl, hx⟩
        · exact ⟨Or.inr h1, fun hs => h2 (Or.inr hs)⟩
      · rintro ⟨h1 | h1, h2⟩
        · exact Or.inl h1
        · by_cases hax : a = x
          · exact Or.inl hax
          · exact Or.inr ⟨h1, fun hs => hs.elim hax h2⟩

theorem dedupKeepFirstAux_nodup (xs : List PyStr) :
    ∀ seen, (dedupKeepFirstAux seen xs).Nodup := by
  induction xs with
  | nil => intro seen; simp [dedupKeepFirstAux]
  | cons x xs ih =>
    intro seen
    by_cases hx : x ∈ seen
    · simpa [dedupKeepFirstAux, if_pos hx] using ih seen
    · simp only [dedupKeepFirstAux, if_neg hx, List.nodup_cons]
      refine ⟨?_, ih (x :: seen)⟩
      intro hmem
      exact ((dedupKeepFirstAux_mem xs (x :: seen) x).mp hmem).2 (List.mem_cons_self x seen)

theorem pySetKeepFirst_ok : SetOrderOK pySetKeepFirst := by
  intro xs
  refine ⟨dedupKeepFirstAux_nodup xs [], fun a => ?_⟩
  simpa using dedupKeepFirstAux_mem xs [] a

theorem pySetRev_ok : SetOrderOK pySetRev := by
  intro xs
  obtain ⟨hnd, hmem⟩ := pySetKeepFirst_ok xs
  refine ⟨by simpa [pySetRev] using hnd, fun a => ?_⟩
  simp [pySetRev, hmem a]

/-! ## `EntityExtractor` cleaning helpers (`src/server/fastapi_processor.py`) -/

/-- Title separators of `re.split(r'\s*[\|–\-:]\s*', title)` ('–' is U+2013). -/
def titleSeps : List Char := ['|', Char.ofNat 0x2013, '-', ':']

/-- First segment of `re.split(r'\s*[\|–\-:]\s*', title)`: everything before
the first separator character, with the whitespace run immediately preceding
that separator absorbed into the (removed) separator match; the whole string
when no separator occurs. -/
def titleFirstSeg (t : PyStr) : PyStr :=
  let pre := t.takeWhile (fun c => ¬ titleSeps.contains c)
  if pre.length = t.length then t else (pre.reverse.dropWhile pyIsWs).reverse

/-- One step of the leading-phrase removal loop of `_clean_title_entity`
(`if cleaned.lower().startswith(prefix.lower()): cleaned = cleaned[len(prefix):].strip()`). -/
def stripLeadPhrase (p : PyStr) (s : PyStr) : PyStr :=
  if ciHasPre p s then pyStrip (s.drop p.length) else s

/-- One step of the marketing-term removal loop of `_clean_title_entity`:
`re.sub(f'\\s+{term}\\s*$', '', cleaned, flags=re.IGNORECASE)`. -/
def stripTrailTerm (term : PyStr) (s : PyStr) : PyStr :=
  let r1 := s.reverse.dropWhile pyIsWs
  if pyLower (r1.take term.length) = pyLower term.reverse then
    let r2 := r1.drop term.length
    match r2 with
    | c :: _ => if pyIsWs c then (r2.dropWhile pyIsWs).reverse else s
    | [] => s
  else s

/-- Line 185, `return cleaned if len(cleaned) > 2 else None` (line 185). -/
def lenGate (s : PyStr) : Option PyStr :=
  if s.length > 2 then some s else none

/-- Embedding of `EntityExtractor._clean_title_entity` (the `if not title` guard maps the
empty string to `None`; here the title argument is the already-stripped
title text, as passed at the call site). -/
def clean_title_entity (title : PyStr) : Option PyStr :=
  if title = [] then none
  else
    let cleaned := titleFirstSeg title
    let cleaned := ["Welcome to".data, "Home".data, "About".data,
                    "Official Website of".data].foldl
      (fun acc p => stripLeadPhrase p acc) cleaned
    let cleaned := ["Services".data, "Solutions".data, "Products".data,
                    "Website".data].foldl
      (fun acc t => stripTrailTerm t acc) cleaned
    lenGate cleaned

/-- Embedding of `EntityExtractor._clean_entity_name`. -/
def clean_entity_name (nm : PyStr) : Option PyStr :=
  if nm = [] then none
  else
    let n1 := collapseWs nm
    let n2 := dropTrailingRun (fun c => c ∈ ['.', ',', ';', '!', '?']) n1
    if n2.length > 100 then none
    else if n2.length < 3 then none
    else some n2

/-- The extractor's fixed suffix table (`self.corporate_suffixes`). -/
def corporate_suffixes : List PyStr :=
  ["Inc".data, "Corp".data, "LLC".data, "Ltd".data, "GmbH".data, "AG".data,
   "SA".data, "SAS".data, "SpA".data, "BV".data, "NV".data, "Pty".data,
   "PLC".data, "SE".data, "Limited".data, "Corporation".data, "Company".data,
   "Incorporated".data]

/-- Embedding of `EntityExtractor._has_corporate_suffix`: the lower-cased name must end
with a lower-cased suffix, or with the suffix followed by a period. -/
def has_corporate_suffix (nm : PyStr) : Bool :=
  let lc := pyLower nm
  corporate_suffixes.any fun suf =>
    endsWithP (pyLower suf) lc || endsWithP (pyLower suf ++ ['.']) lc

/-! ## Copyright-notice regexes

`re.findall` of the two patterns at lines 126–128 of `fastapi_processor.py`,
translated construct by construct (both compiled with `re.IGNORECASE`, so
`[A-Z]` matches any ASCII letter and the literals `Copyright`/`All`/`Rights`
match case-insensitively):

  pattern 1: `(?:©|Copyright)\s+(?:\d{4}\s+)?([A-Z][A-Za-z0-9\s&.,'-]+?)(?:\.|,|\s+All|\s+Rights)`
  pattern 2: `©\s*(\d{4})?\s*([A-Z][A-Za-z0-9\s&.,'-]+?)(?:\.|,|\s|$)`

The captured name group is `[A-Z]` followed by a lazy `+?` over the class
`[A-Za-z0-9\s&.,'-]`, so the group grows one character at a time and stops at
the first position where the terminator alternation matches. -/

/-- Character class `[A-Za-z0-9\s&.,'-]` of the captured name group. -/
def copyNameCls (c : Char) : Bool :=
  pyIsAlnum c || pyIsWs c || c = '&' || c = '.' || c = ',' ||
  c = Char.ofNat 39 || c = '-'

/-- Terminator `(?:\.|,|\s+All|\s+Rights)` of pattern 1; returns the rest of
the input after the terminator. -/
def copyTerm1 (s : PyStr) : Option PyStr :=
  match s with
  | '.' :: r => some r
  | ',' :: r => some r
  | _ =>
    let w := s.takeWhile pyIsWs
    let r := s.dropWhile pyIsWs
    if w ≠ [] && ciHasPre "All".data r then some (r.drop 3)
    else if w ≠ [] && ciHasPre "Rights".data r then some (r.drop 6)
    else none

/-- Terminator `(?:\.|,|\s|$)` of pattern 2. -/
def copyTerm2 (s : PyStr) : Option PyStr :=
  match s with
  | [] => some []
  | '.' :: r => some r
  | ',' :: r => some r
  | c :: r => if pyIsWs c then some r else none

/-- Lazy `+?` scan of the name group: consume one class character, test the
terminator, repeat.  Returns the captured group and the rest after the
terminator. -/
def lazyNameScan (term : PyStr → Option PyStr) : PyStr → PyStr → Option (PyStr × PyStr)
  | acc, c :: cs =>
    if copyNameCls c then
      match term cs with
      | some rest => some ((c :: acc).reverse, rest)
      | none => lazyNameScan term (c :: acc) cs
    else none
  | _, [] => none

/-- One attempted match of pattern 1 at the current position; on success
returns (captured group, rest of input after the match). -/
def tryCopy1 (s : PyStr) : Option (PyStr × PyStr) :=
  -- `(?:©|Copyright)`
  let start : Option PyStr :=
    match s with
    | '©' :: r => some r
    | _ => if ciHasPre "Copyright".data s then some (s.drop 9) else none
  match start with
  | none => none
  | some r0 =>
    -- `\s+` (greedy; the following tokens are disjoint from `\s`)
    let w := r0.takeWhile pyIsWs
    if w = [] then none
    else
      let r1 := r0.dropWhile pyIsWs
      -- `(?:\d{4}\s+)?`: when present it consumes 4 digits plus whitespace;
      -- when its inner `\s+` fails, the fallback (absent) branch puts `[A-Z]`
      -- on a digit, which fails — so a plain conditional is faithful.
      let r2 :=
        match r1 with
        | d1 :: d2 :: d3 :: d4 :: rest =>
          if pyIsDigit d1 && pyIsDigit d2 && pyIsDigit d3 && pyIsDigit d4 &&
             (match rest with | c :: _ => pyIsWs c | [] => false) then
            rest.dropWhile pyIsWs
          else r1
        | _ => r1
      match r2 with
      | c :: cs => if pyIsAsciiAlpha c then lazyNameScan copyTerm1 [c] cs else none
      | [] => none

/-- One attempted match of pattern 2; the code keeps group 2 (the name). -/
def tryCopy2 (s : PyStr) : Option (PyStr × PyStr) :=
  match s with
  | '©' :: r0 =>
    let r1 := r0.dropWhile pyIsWs        -- `\s*`
    let r2 :=
      if (r1.take 4).length = 4 && (r1.take 4).all pyIsDigit then r1.drop 4
      else r1                            -- `(\d{4})?`
    let r3 := r2.dropWhile pyIsWs        -- `\s*`
    match r3 with
    | c :: cs => if pyIsAsciiAlpha c then lazyNameScan copyTerm2 [c] cs else none
    | [] => none
  | _ => none

/-- The `re.findall` scan: try a match at every position left to right; on a
match, record the group and continue after the match (all matches here are
non-empty).  Fuel is the input length. -/
def findallAux (tryM : PyStr → Option (PyStr × PyStr)) : Nat → PyStr → List PyStr
  | 0, _ => []
  | _ + 1, [] => []
  | fuel + 1, c :: cs =>
    match tryM (c :: cs) with
    | some (g, rest) => g :: findallAux tryM fuel rest
    | none => findallAux tryM fuel cs

def findallCopy1 (s : PyStr) : List PyStr := findallAux tryCopy1 s.length s

def findallCopy2 (s : PyStr) : List PyStr := findallAux tryCopy2 s.length s

/-- The copyright-notice extraction loop (lines 131–137): for each pattern in
order, for each match, clean the captured name and keep it when
`entity and len(entity) > 2`. -/
def copyrightEntities (text : PyStr) : List PyStr :=
  (findallCopy1 text ++ findallCopy2 text).filterMap fun m =>
    match clean_entity_name m with
    | some e => if e.length > 2 then some e else none
    | none => none

/-! ## Email / phone regexes (lines 140, 145)

Backtracking is modelled with the list monad: each parser step maps an input
to the list of possible rests, ordered by the regex engine's preference
(greedy quantifiers propose longer consumptions first, `?` proposes presence
first); the first overall success is the match, exactly Python's leftmost
depth-first semantics. -/

/-- Regex `X?` for a single-character class: present first, then absent. -/
def reOpt (p : Char → Bool) (s : PyStr) : List PyStr :=
  match s with
  | c :: r => if p c then [r, s] else [s]
  | [] => [s]

/-- Regex `X{min,max}` (greedy) for a character class: propose consuming
`min(max, run length)` characters down to `min`. -/
def reRep (p : Char → Bool) (lo hi : Nat) (s : PyStr) : List PyStr :=
  let n := Nat.min hi (s.takeWhile p).length
  if n < lo then []
  else (List.range (n - lo + 1)).map fun k => s.drop (n - k)

/-- Regex `X+` (greedy, unbounded) for a character class. -/
def rePlus (p : Char → Bool) (s : PyStr) : List PyStr := reRep p 1 s.length s

/-- A single literal character. -/
def reChr (p : Char → Bool) (s : PyStr) : List PyStr :=
  match s with
  | c :: r => if p c then [r] else []
  | [] => []

/-- Character classes of the email pattern
`\b[A-Za-z0-9._%+-]+@[A-Za-z0-9.-]+\.[A-Z|a-z]{2,}\b`. -/
def emailLocalCls (c : Char) : Bool :=
  pyIsAlnum c || c = '.' || c = '_' || c = '%' || c = '+' || c = '-'

def emailDomCls (c : Char) : Bool := pyIsAlnum c || c = '.' || c = '-'

/-- Class `[A-Z|a-z]` is letters plus a literal `|`. -/
def emailTldCls (c : Char) : Bool := pyIsAsciiAlpha c || c = '|'

def wordB : Option Char → Bool
  | some c => pyIsWord c
  | none => false

/-- One attempted email match at the current position (`prev` is the
character before the position, for the leading `\b`).  Returns the rest
after the match. -/
def tryEmail (prev : Option Char) (s : PyStr) : Option PyStr :=
  -- leading `\b`
  let headW := match s with | c :: _ => pyIsWord c | [] => false
  if wordB prev = headW then none
  else
    let rests :=
      ((((rePlus emailLocalCls s).flatMap (reChr (· = '@'))).flatMap
          (rePlus emailDomCls)).flatMap (reChr (· = '.'))).flatMap
        (fun r => reRep emailTldCls 2 r.length r)
    -- trailing `\b`: boundary between the last consumed character and the rest
    rests.find? fun rest =>
      let consumed := s.take (s.length - rest.length)
      wordB consumed.getLast? ≠ wordB rest.head?

/-- Character‐level scan for `re.findall(email_pattern, text)`, tracking the
previous character for `\b`. -/
def findallEmailAux : Nat → Option Char → PyStr → List PyStr
  | 0, _, _ => []
  | _ + 1, _, [] => []
  | fuel + 1, prev, c :: cs =>
    match tryEmail prev (c :: cs) with
    | some rest =>
      let s := c :: cs
      let consumed := s.take (s.length - rest.length)
      consumed :: findallEmailAux fuel consumed.getLast? rest
    | none => findallEmailAux fuel (some c) cs

def emailFindall (s : PyStr) : List PyStr := findallEmailAux s.length none s

/-- Separator class `[-\s\.]` of the phone pattern. -/
def phoneSepCls (c : Char) : Bool := c = '-' || pyIsWs c || c = '.'

/-- One attempted match of
`[\+]?[(]?[0-9]{1,3}[)]?[-\s\.]?[(]?[0-9]{1,3}[)]?[-\s\.]?[0-9]{3,4}[-\s\.]?[0-9]{3,4}`. -/
def tryPhone (s : PyStr) : Option PyStr :=
  (((((((((((reOpt (· = '+') s).flatMap (reOpt (· = '('))).flatMap
      (reRep pyIsDigit 1 3)).flatMap (reOpt (· = ')'))).flatMap
      (reOpt phoneSepCls)).flatMap (reOpt (· = '('))).flatMap
      (reRep pyIsDigit 1 3)).flatMap (reOpt (· = ')'))).flatMap
      (reOpt phoneSepCls)).flatMap (reRep pyIsDigit 3 4)).flatMap
      (reOpt phoneSepCls)).flatMap (reRep pyIsDigit 3 4) |>.head?

def findallPhoneAux : Nat → PyStr → List PyStr
  | 0, _ => []
  | _ + 1, [] => []
  | fuel + 1, c :: cs =>
    match tryPhone (c :: cs) with
    | some rest =>
      let s := c :: cs
      s.take (s.length - rest.length) :: findallPhoneAux fuel rest
    | none => findallPhoneAux fuel cs

def phoneFindall (s : PyStr) : List PyStr := findallPhoneAux s.length s

/-! ## A minimal JSON value type for `json.loads` results -/

inductive Jsn where
  | jnull : Jsn
  | jbool : Bool → Jsn
  | jnum : ℚ → Jsn
  | jstr : String → Jsn
  | jarr : List Jsn → Jsn
  | jobj : List (String × Jsn) → Jsn

def jlookup (k : String) : List (String × Jsn) → Option Jsn
  | [] => none
  | (k2, v) :: fs => if k2 = k then some v else jlookup k fs

/-- Python `data.get(k)` for a parsed JSON value (`None` when `data` is not a dict,
mirroring the `isinstance(data, dict)` guard at line 114). -/
def jget (j : Jsn) (k : String) : Option Jsn :=
  match j with
  | .jobj fs => jlookup k fs
  | _ => none

/-- Python truthiness of a parsed JSON value. -/
def pyTruthyJ : Jsn → Bool
  | .jnull => false
  | .jbool b => b
  | .jnum q => q ≠ 0
  | .jstr s => s ≠ ""
  | .jarr xs => !xs.isEmpty
  | .jobj fs => !fs.isEmpty

/-! ## The parsed-document model and `extract_from_html`

`BeautifulSoup(html_content, 'lxml')` is the modelling boundary: it accepts
any input string without raising and yields a document tree; a `Soup` value
records exactly the parts of that tree the extractor reads.  An empty or
unparseable input string parses to a soup with no title tag, no meta tags,
no script elements and empty text (`emptySoup`). -/

structure MetaTag where
  name : Option PyStr      -- `meta.get('name')`
  property : Option PyStr  -- `meta.get('property')`
  content : Option PyStr   -- `meta.get('content')`

structure ScriptTag where
  typeAttr : Option String -- the `type` attribute
  stringVal : Option PyStr -- `script.string` (`None` for an empty element)

structure Soup where
  title : Option PyStr     -- `title_tag.get_text()` when a title tag exists
  metas : List MetaTag     -- `soup.find_all('meta')`
  scripts : List ScriptTag -- all `script` elements of the parse
  text : PyStr             -- `soup.get_text()` after script/style removal

def emptySoup : Soup := ⟨none, [], [], []⟩

/-- Lines 67 and 68, `for script in soup(["script", "style"]): script.decompose()` (lines
67–68): every script element is removed from the tree before anything else
is read. -/
def decomposeScriptsStyles (s : Soup) : Soup := { s with scripts := [] }

/-- The only uncaught exception path of `extract_from_html`:
`json.loads(script.string)` raises `TypeError` when `script.string` is
`None`, and the surrounding `except json.JSONDecodeError` clause does not
catch `TypeError`. -/
inductive PyErr where
  | typeError

def pyTruthyO : Option PyStr → Bool
  | some s => !s.isEmpty
  | none => false

/-- Python `a or b` on optional strings: `a` when truthy, else `b`. -/
def pyOrO (a b : Option PyStr) : Option PyStr := if pyTruthyO a then a else b

/-- Python dict assignment `d[k] = v`: overwrite in place, else append. -/
def dictSet (k v : PyStr) : List (PyStr × PyStr) → List (PyStr × PyStr)
  | [] => [(k, v)]
  | (k2, v2) :: fs => if k2 = k then (k2, v) :: fs else (k2, v2) :: dictSet k v fs

/-- The result dict of `extract_from_html`. -/
structure ExtractResult where
  domain : String
  title : Option PyStr
  meta_tags : List (PyStr × PyStr)
  structured_data : List Jsn
  company_name : Option PyStr
  primary_entity : Option PyStr
  entities : List PyStr
  addresses : List PyStr
  emails : List PyStr
  phones : List PyStr

/-- State threaded through the meta-tag loop (lines 93–105). -/
structure MetaAcc where
  tags : List (PyStr × PyStr)
  ents : List PyStr
  primary : Option PyStr

/-- One iteration of `for meta in soup.find_all('meta')`:
`name = meta.get('name') or meta.get('property')`; when `name` and `content`
are truthy the tag dict is updated, and an `og:site_name` content that
cleans to a truthy entity is appended to the entity list and becomes
`primary_entity` if that is still unset.  (`clean_entity_name` never
returns an empty string, so `if entity:` is its `isSome` test.) -/
def metaStep (acc : MetaAcc) (m : MetaTag) : MetaAcc :=
  let nm := pyOrO m.name m.property
  if pyTruthyO nm && pyTruthyO m.content then
    let k := nm.getD []
    let v := m.content.getD []
    let tags2 := dictSet k v acc.tags
    if k = "og:site_name".data then
      match clean_entity_name v with
      | some e =>
        { tags := tags2, ents := acc.ents ++ [e],
          primary := match acc.primary with | some p => some p | none => some e }
      | none => { acc with tags := tags2 }
    else { acc with tags := tags2 }
  else acc

def metaScan (ms : List MetaTag) : MetaAcc := ms.foldl metaStep ⟨[], [], none⟩

/-- The JSON-LD loop (lines 108–122) over
`soup.find_all('script', type='application/ld+json')`: `json.loads` of a
`None` `script.string` raises `TypeError` (uncaught); a `JSONDecodeError`
is swallowed by the `except` clause; a parsed dict with
`@type == 'Organization'` and a truthy `name` contributes the name to the
entity list and to `company_name` (first one wins).  (A truthy non-string
`name` would also be appended in Python and would crash later in
`_has_corporate_suffix`; since the loop only ever runs on the decomposed —
hence empty — script list, the model restricts the append to strings.)
Returns (structured_data, entities, company_name). -/
def ldScan (loads : PyStr → Option Jsn) :
    List ScriptTag → Except PyErr (List Jsn × List PyStr × Option PyStr)
  | [] => .ok ([], [], none)
  | sc :: rest =>
    if sc.typeAttr = some "application/ld+json" then
      match sc.stringVal with
      | none => .error .typeError
      | some s =>
        match loads s with
        | none => ldScan loads rest
        | some d =>
          match ldScan loads rest with
          | .error e => .error e
          | .ok (sd, ents, comp) =>
            let isOrg : Bool :=
              match jget d "@type" with
              | some (.jstr t) => t == "Organization"
              | _ => false
            let orgName : Option String :=
              if isOrg then
                match jget d "name" with
                | some (.jstr n) => if n ≠ "" then some n else none
                | _ => none
              else none
            match orgName with
            | some n => .ok (d :: sd, n.data :: ents, some n.data)
            | none => .ok (d :: sd, ents, comp)
    else ldScan loads rest

/-- Lines 84–90: the candidate contributed by the title tag, as a list
(`if entity: result['entities'].append(entity)`). -/
def titleEntsOf (title : Option PyStr) : List PyStr :=
  match title with
  | some t => (match clean_title_entity t with | some e => [e] | none => [])
  | none => []

/-- Lines 152–162: primary-entity selection — the value already chosen by
the meta loop if any, else the first entity of the (deduplicated) entity
list with a corporate suffix, else its first element. -/
def selectPrimary (primary0 : Option PyStr) (entities : List PyStr) : Option PyStr :=
  match primary0 with
  | some p => some p
  | none =>
    match entities.find? has_corporate_suffix with
    | some e => some e
    | none => entities.head?

/-- Embedding of `EntityExtractor.extract_from_html(html_content, domain)` over the
parsed document `doc`, the `json.loads` oracle `loads` and the
`list(set(...))` order oracle `setOrder` (lines 62–164 of
`fastapi_processor.py`, in source order: decompose scripts/styles; title;
meta tags; JSON-LD; copyright notices; emails; phones; dedup; primary
selection). -/
def extract_from_html (loads : PyStr → Option Jsn)
    (setOrder : List PyStr → List PyStr) (doc : Soup) (domain : String) :
    Except PyErr ExtractResult :=
  let soup := decomposeScriptsStyles doc
  let title := soup.title.map pyStrip
  let titleEnts := titleEntsOf title
  let ma := metaScan soup.metas
  match ldScan loads soup.scripts with
  | .error e => .error e
  | .ok (sd, ldEnts, company) =>
    let text := soup.text
    let rawEnts := titleEnts ++ (ma.ents ++ (ldEnts ++ copyrightEntities text))
    let emails := (setOrder (emailFindall text)).take 5
    let phones := (setOrder (phoneFindall text)).take 5
    let entities := setOrder (rawEnts.filter (fun s => !s.isEmpty))
    let primary := selectPrimary ma.primary entities
    .ok { domain := domain, title := title, meta_tags := ma.tags,
          structured_data := sd, company_name := company,
          primary_entity := primary, entities := entities,
          addresses := [], emails := emails, phones := phones }

/-! ### Derived views used in the theorems -/

/-- The entity list in discovery order, before deduplication.  The JSON-LD
source contributes nothing: all script elements are decomposed before the
JSON-LD scan runs. -/
def rawEntities (doc : Soup) : List PyStr :=
  titleEntsOf (doc.title.map pyStrip) ++
    ((metaScan doc.metas).ents ++ copyrightEntities doc.text)

/-- Embedding of `list(set(filter(None, entities)))` under the order oracle. -/
def dedupedEntities (setOrder : List PyStr → List PyStr) (doc : Soup) : List PyStr :=
  setOrder ((rawEntities doc).filter (fun s => !s.isEmpty))

/-- The primary-entity decision (meta first, then the suffix scan over the
deduplicated list, then its first element). -/
def primaryOf (setOrder : List PyStr → List PyStr) (doc : Soup) : Option PyStr :=
  selectPrimary (metaScan doc.metas).primary (dedupedEntities setOrder doc)

/-- Characterization: `extract_from_html` never raises and its result is fully characterized:
the script decomposition empties the script list, so the JSON-LD loop (the
only raising path) never runs and contributes nothing. -/
theorem extract_from_html_eq (loads : PyStr → Option Jsn)
    (setOrder : List PyStr → List PyStr) (doc : Soup) (domain : String) :
    extract_from_html loads setOrder doc domain = .ok
      { domain := domain
      , title := doc.title.map pyStrip
      , meta_tags := (metaScan doc.metas).tags
      , structured_data := []
      , company_name := none
      , primary_entity := primaryOf setOrder doc
      , entities := dedupedEntities setOrder doc
      , addresses := []
      , emails := (setOrder (emailFindall doc.text)).take 5
      , phones := (setOrder (phoneFindall doc.text)).take 5 } := by
  cases doc
  rfl

/-! ## `analyze_geographic_bias` (`src/analytics_server.py`, lines 197–210) -/

/-- One GLEIF candidate row as serialized by the shell-analysis query (only
the fields read by `analyze_geographic_bias` are used by it; `None` or empty
jurisdictions are excluded from the jurisdiction list by the
`if c.get('jurisdiction')` truthiness test). -/
structure LeiCand where
  lei_code : Option String
  legal_name : Option String
  jurisdiction : Option String
  rank_position : Option Int
  weighted_score : Option ℚ
  entity_status : Option String
  deriving DecidableEq

/-- Embedding of `jurisdictions = [c.get('jurisdiction') for c in candidates_list if c.get('jurisdiction')]`. -/
def jurisdictionsOf (cs : List LeiCand) : List String :=
  cs.filterMap fun c =>
    match c.jurisdiction with
    | some j => if j ≠ "" then some j else none
    | none => none

/-- Count of candidates used as `us_entities`. -/
def usEntities (cs : List LeiCand) : Nat :=
  ((jurisdictionsOf cs).filter (· = "US")).length

inductive BiasAnalysis where
    /-- the `{"message": "No candidates to analyze"}` early return -/
  | noCandidates
    /-- fields `us_bias_percentage`, `jurisdiction_distribution` (as a counting
    function over the jurisdiction strings), `bias_assessment`,
    `multinational_structure` -/
  | report (us_bias_percentage : ℚ) (jurisdiction_distribution : String → Nat)
      (bias_assessment : String) (multinational_structure : Bool)

/-- Embedding of `analyze_geographic_bias(candidates_list)`.  The float comparison
`us_entities > total_entities * 0.6` is modelled over `ℚ` with the exact
threshold 3/5: for every integer pair `(us, total)` with `total ≤ 10^14`,
IEEE-double evaluation of `us > total * 0.6` agrees with the exact rational
comparison (the rounding error of `total * 0.6` is far below the distance to
the nearest integer, and exact multiples of 3/5 round exactly), so the model
is faithful on every realistic candidate count. -/
def analyze_geographic_bias (cs : List LeiCand) : BiasAnalysis :=
  if cs.isEmpty then .noCandidates
  else
    let jurisdictions := jurisdictionsOf cs
    let us_entities := usEntities cs
    let total_entities := cs.length
    .report ((us_entities : ℚ) / (total_entities : ℚ) * 100)
      (fun j => (jurisdictions.filter (· = j)).length)
      (if (us_entities : ℚ) > (total_entities : ℚ) * (3 / 5) then
        "High US bias detected"
       else "Balanced distribution")
      (decide (jurisdictions.dedup.length > 2))

def biasAssessment : BiasAnalysis → Option String
  | .noCandidates => none
  | .report _ _ a _ => some a

/-! ## `get_domain_hash` best-record aggregation
(`src/domain_hash_service.py`, lines 101–119) -/

/-- One row of the `domains` query; the query orders rows by
`created_at DESC` (most recent first). -/
structure DomainRow where
  batch_id : String
  status : String
  company_name : Option String
  confidence_score : Option ℚ
  created_at : Int
  deriving DecidableEq

/-- The key of `max(results, key=lambda r: r.confidence_score or 0)`:
a `None` score — and a 0 score, which is falsy — both give 0. -/
def rowKey (r : DomainRow) : ℚ := r.confidence_score.getD 0

/-- Python's `max(rows, key=rowKey)`: the FIRST row attaining the maximal
key (`max` keeps the current best on ties), `none` on the empty list (where
Python would raise; the endpoint returns 404 before reaching this point). -/
def best_result (rows : List DomainRow) : Option DomainRow :=
  match rows with
  | [] => none
  | r :: rs => some (rs.foldl (fun b x => if rowKey x > rowKey b then x else b) r)

/-- Modelled from the spec: `best = argmax(records, key = confidence_score,
default = null when all null); ties broken by most recent created_at` —
records without a confidence score are not comparable under this rule, so
the argmax ranges over the records with a non-null score only.  Used to
compare the spec's selection rule with `best_result`. -/
def specBest (rows : List DomainRow) : Option DomainRow :=
  match rows.filter (·.confidence_score.isSome) with
  | [] => none
  | r :: rs =>
    some (rs.foldl
      (fun b x =>
        if rowKey x > rowKey b ∨ (rowKey x = rowKey b ∧ x.created_at > b.created_at)
        then x else b) r)

/-! ## `generate_domain_hash` (`src/domain_hash_service.py`, lines 36–38)

`hashlib.md5(domain.lower().strip().encode()).hexdigest()` — MD5 per
RFC 1321, over 32-bit words embedded as `Nat` reduced mod 2^32. -/

def m32 (x : Nat) : Nat := x % 4294967296

def rotl32 (x s : Nat) : Nat := m32 ((x <<< s) ||| (x >>> (32 - s)))

/-- The 64 MD5 sine-derived constants `K[i] = floor(abs(sin(i+1)) * 2^32)`. -/
def mdK : List Nat :=
  [0xd76aa478, 0xe8c7b756, 0x242070db, 0xc1bdceee,
   0xf57c0faf, 0x4787c62a, 0xa8304613, 0xfd469501,
   0x698098d8, 0x8b44f7af, 0xffff5bb1, 0x895cd7be,
   0x6b901122, 0xfd987193, 0xa679438e, 0x49b40821,
   0xf61e2562, 0xc040b340, 0x265e5a51, 0xe9b6c7aa,
   0xd62f105d, 0x02441453, 0xd8a1e681, 0xe7d3fbc8,
   0x21e1cde6, 0xc33707d6, 0xf4d50d87, 0x455a14ed,
   0xa9e3e905, 0xfcefa3f8, 0x676f02d9, 0x8d2a4c8a,
   0xfffa3942, 0x8771f681, 0x6d9d6122, 0xfde5380c,
   0xa4beea44, 0x4bdecfa9, 0xf6bb4b60, 0xbebfbc70,
   0x289b7ec6, 0xeaa127fa, 0xd4ef3085, 0x04881d05,
   0xd9d4d039, 0xe6db99e5, 0x1fa27cf8, 0xc4ac5665,
   0xf4292244, 0x432aff97, 0xab9423a7, 0xfc93a039,
   0x655b59c3, 0x8f0ccc92, 0xffeff47d, 0x85845dd1,
   0x6fa87e4f, 0xfe2ce6e0, 0xa3014314, 0x4e0811a1,
   0xf7537e82, 0xbd3af235, 0x2ad7d2bb, 0xeb86d391]

/-- The per-round left-rotation amounts. -/
def mdS : List Nat :=
  [7, 12, 17, 22, 7, 12, 17, 22, 7, 12, 17, 22, 7, 12, 17, 22,
   5, 9, 14, 20, 5, 9, 14, 20, 5, 9, 14, 20, 5, 9, 14, 20,
   4, 11, 16, 23, 4, 11, 16, 23, 4, 11, 16, 23, 4, 11, 16, 23,
   6, 10, 15, 21, 6, 10, 15, 21, 6, 10, 15, 21, 6, 10, 15, 21]

/-- Little-endian bytes of `n`, `k` bytes wide. -/
def leBytes (k n : Nat) : List Nat :=
  (List.range k).map fun i => (n >>> (8 * i)) % 256

/-- MD5 padding: append `0x80`, zero bytes to 56 mod 64, then the 64-bit
little-endian bit length. -/
def md5Pad (msg : List Nat) : List Nat :=
  let len := msg.length
  let zeros := (120 - ((len + 1) % 64)) % 64
  msg ++ 0x80 :: (List.replicate zeros 0 ++ leBytes 8 ((len * 8) % 18446744073709551616))

/-- The 16 little-endian message words of one 64-byte block. -/
def blockWord (block : List Nat) (j : Nat) : Nat :=
  block.getD (4 * j) 0 + 256 * block.getD (4 * j + 1) 0 +
  65536 * block.getD (4 * j + 2) 0 + 16777216 * block.getD (4 * j + 3) 0

/-- The 64 MD5 rounds on one block. -/
def md5Rounds (block : List Nat) (st : Nat × Nat × Nat × Nat) :
    Nat × Nat × Nat × Nat :=
  (List.range 64).foldl
    (fun st4 i =>
      let A := st4.1; let B := st4.2.1; let C := st4.2.2.1; let D := st4.2.2.2
      let fg : Nat × Nat :=
        if i < 16 then ((B &&& C) ||| ((B ^^^ 0xffffffff) &&& D), i)
        else if i < 32 then ((D &&& B) ||| ((D ^^^ 0xffffffff) &&& C), (5 * i + 1) % 16)
        else if i < 48 then (B ^^^ C ^^^ D, (3 * i + 5) % 16)
        else (C ^^^ (B ||| (D ^^^ 0xffffffff)), (7 * i) % 16)
      let tmp := m32 (fg.1 + A + mdK.getD i 0 + blockWord block fg.2)
      (D, m32 (B + rotl32 tmp (mdS.getD i 0)), B, C))
    st

/-- One MD5 compression step: run the rounds and add the result into the
running state. -/
def md5Compress (st : Nat × Nat × Nat × Nat) (block : List Nat) :
    Nat × Nat × Nat × Nat :=
  let r := md5Rounds block st
  (m32 (st.1 + r.1), m32 (st.2.1 + r.2.1), m32 (st.2.2.1 + r.2.2.1),
   m32 (st.2.2.2 + r.2.2.2))

/-- Split into 64-byte blocks (fuel = byte count). -/
def chunks64Aux : Nat → List Nat → List (List Nat)
  | 0, _ => []
  | _ + 1, [] => []
  | fuel + 1, bs => bs.take 64 :: chunks64Aux fuel (bs.drop 64)

def chunks64 (bs : List Nat) : List (List Nat) := chunks64Aux bs.length bs

def hexChar (n : Nat) : Char :=
  if n < 10 then Char.ofNat (48 + n) else Char.ofNat (87 + n)

def byteHex (b : Nat) : List Char := [hexChar (b / 16), hexChar (b % 16)]

/-- Embedding of `hashlib.md5(bytes).hexdigest()`. -/
def md5Hex (msg : List Nat) : String :=
  let st := (chunks64 (md5Pad msg)).foldl md5Compress
    (0x67452301, 0xefcdab89, 0x98badcfe, 0x10325476)
  String.mk (((leBytes 4 st.1 ++ leBytes 4 st.2.1 ++ leBytes 4 st.2.2.1 ++
    leBytes 4 st.2.2.2).flatMap byteHex))

/-- Embedding of `generate_domain_hash(domain)`: MD5 hex digest of
`domain.lower().strip().encode()` (UTF-8; all concrete inputs are ASCII, so
`Char.toNat` is the byte encoding). -/
def generate_domain_hash (domain : String) : String :=
  md5Hex ((pyLower (pyStrip domain.data)).map Char.toNat)

/-! ## `LangExtractService.extract_entities`
(`src/server/services/langextractService.py`)

The model covers the collaborator-response handling (lines 75–83 and
162–255).  The prompt construction and the HTML preprocessing (lines 37–73)
only shape the text sent to the collaborator; `text_content` is taken here
as an input.  `json.loads` is the oracle `loads`; the Gemini call outcome is
an `LLMResponse`.  Timing fields (`processingTime`) are wall-clock dependent
and are omitted from the result record.  The whole function body sits in a
`try`/`except Exception` (lines 33, 247) whose handler returns an error dict
with an empty `entities` list, so the embedding is a total function: every
internal raise is modelled by the caught-error result. -/

inductive LLMResponse where
    /-- case where `generate_content` raised (API error, timeout, ...) -/
  | apiFailure (msg : String)
    /-- falsy response object or no `.text` attribute -/
  | invalid
    /-- the `response.text` payload -/
  | success (text : String)

structure LEEntity where
  text : String
  type : String
  confidence : ℚ
  locStart : Nat
  locEnd : Nat
  context : String
  deriving DecidableEq

structure LEResult where
  error : Option String
  entities : List LEEntity
  tokensProcessed : Nat
  deriving DecidableEq

/-- Embedding of `re.search(r'\{.*\}', s, re.DOTALL)`: from the first `{` to the last
`}`, when a `}` occurs after the first `{`. -/
def braceSpan (s : PyStr) : Option PyStr :=
  let lb : Char := Char.ofNat 123
  let rb : Char := Char.ofNat 125
  let i := (s.takeWhile (· ≠ lb)).length
  let post := (s.reverse.takeWhile (· ≠ rb)).length
  if i < s.length ∧ post < s.length ∧ i < s.length - 1 - post + 1 then
    some ((s.drop i).take (s.length - post - i))
  else none

/-- Python `str.find`: index of the first occurrence, `-1` when absent. -/
def strFindAux (needle : PyStr) : Nat → PyStr → Int
  | _, [] => if needle = [] then 0 else -1
  | idx, c :: cs =>
    if needle.isPrefixOf (c :: cs) then (idx : Int)
    else strFindAux needle (idx + 1) cs

def strFind (hay needle : PyStr) : Int :=
  if needle.isPrefixOf hay then 0 else strFindAux needle 0 hay

/-- Lines 208–224: build the entity list from the `extractions` dict.  A
truthy non-dict extraction value, a truthy non-string `value`, or a
non-numeric `confidence` raises inside the outer `try` (AttributeError /
TypeError), which the line-247 handler turns into an error result —
modelled as `.error`. -/
def buildEntities (tc : String) : List (String × Jsn) → Except String (List LEEntity)
  | [] => .ok []
  | (fname, ed) :: rest =>
    if pyTruthyJ ed then
      match ed with
      | .jobj _ =>
        match jget ed "value" with
        | some v =>
          if pyTruthyJ v then
            match v with
            | .jstr vs =>
              let conf : Except String ℚ :=
                match jget ed "confidence" with
                | none => .ok (50 / 100)
                | some (.jnum q) => .ok (q / 100)
                | some (.jbool b) => .ok ((if b then 1 else 0) / 100)
                | some _ => .error "TypeError: unsupported operand for /"
              match conf with
              | .error e => .error e
              | .ok q =>
                let ctx : String :=
                  match jget ed "context" with
                  | some (.jstr c) => c
                  | _ => ""
                let startPos := strFind tc.data vs.data
                match buildEntities tc rest with
                | .error e => .error e
                | .ok es =>
                  .ok ({ text := vs, type := fname, confidence := q
                       , locStart := if startPos ≠ -1 then startPos.toNat else 0
                       , locEnd := if startPos ≠ -1 then startPos.toNat + vs.length
                                   else vs.length
                       , context := ctx } :: es)
            | _ => .error "TypeError: str.find on non-string"
          else buildEntities tc rest
        | none => buildEntities tc rest
      | _ => .error "AttributeError: get on non-dict"
    else buildEntities tc rest

/-- The error-dict result shape shared by lines 76–83, 168–175, 195–202 and
247–255. -/
def leErrorResult (msg : String) : LEResult :=
  { error := some msg, entities := [], tokensProcessed := 0 }

/-- Lines 204–245: process a parsed response JSON into the success result
(the line-247 handler catches anything `buildEntities` raises). -/
def leProcess (tc : String) (j : Jsn) : LEResult :=
  let extractions := (jget j "extractions").getD (.jobj [])
  match extractions with
  | .jobj fields =>
    match buildEntities tc fields with
    | .error e => leErrorResult e
    | .ok es =>
      { error := none, entities := es, tokensProcessed := (pySplitWs tc.data).length }
  | _ =>
    -- `extractions.items()` on a non-dict raises; caught at line 247
    leErrorResult "AttributeError: items on non-dict"

/-- Embedding of the `LangExtractService.extract_entities` response handling.  `modelOk` is
`self.model is not None` (line 75); `loads` is `json.loads` restricted to
success-or-`JSONDecodeError`; `response` is the outcome of the
`generate_content` call. -/
def extract_entities (loads : String → Option Jsn) (modelOk : Bool)
    (tc : String) (response : LLMResponse) : LEResult :=
  if !modelOk then leErrorResult "Gemini API key not configured"
  else
    match response with
    | .apiFailure m => leErrorResult ("API error: " ++ m)
    | .invalid => leErrorResult "Invalid response"
    | .success s =>
      match braceSpan s.data with
      | some sub =>
        match loads (String.mk sub) with
        | some j => leProcess tc j
        | none =>
          -- `json.loads(json_match.group())` raising `JSONDecodeError` is
          -- caught by the `except Exception as api_error` clause (line 193)
          leErrorResult "JSONDecodeError"
      | none =>
        match loads s with
        | some j => leProcess tc j
        | none => leProcess tc (.jobj [("extractions", .jobj [])])

/-! ## Concrete documents (BeautifulSoup parses of concrete HTML inputs) -/

/-- A `json.loads` oracle for scenarios whose script contents are never
parsed (no JSON text reaches `json.loads` in them). -/
def loads0 : PyStr → Option Jsn := fun _ => none

/-- The parse of
`"<title>Welcome to Acme Corp</title><meta property='og:site_name' content='Acme Corporation'>"`:
a title tag with text `Welcome to Acme Corp`, one meta tag carrying only
`property`/`content` attributes, no script elements, and visible text equal
to the title text (the meta tag contributes no text). -/
def docAcme : Soup :=
  { title := some "Welcome to Acme Corp".data
  , metas := [{ name := none
              , property := some "og:site_name".data
              , content := some "Acme Corporation".data }]
  , scripts := []
  , text := "Welcome to Acme Corp".data }

/-- The parse of a page whose title is 101 `A` characters and nothing else. -/
def docLongTitle : Soup :=
  { title := some (List.replicate 101 'A'), metas := [], scripts := [], text := [] }

/-- A JSON-LD organization block and its parse. -/
def ldOrgText : String :=
  "\x7b\"@type\": \"Organization\", \"name\": \"Acme GmbH\"\x7d"

def ldOrgJson : Jsn :=
  .jobj [("@type", .jstr "Organization"), ("name", .jstr "Acme GmbH")]

/-- A `json.loads` oracle that parses exactly the organization block. -/
def loadsC3 : PyStr → Option Jsn :=
  fun s => if s = ldOrgText.data then some ldOrgJson else none

/-- The parse of a page with a meta `og:site_name` of `MetaBrand Inc` and a
JSON-LD script declaring an Organization named `Acme GmbH`. -/
def docC3 : Soup :=
  { title := none
  , metas := [{ name := some "og:site_name".data
              , property := none
              , content := some "MetaBrand Inc".data }]
  , scripts := [{ typeAttr := some "application/ld+json"
                , stringVal := some ldOrgText.data }]
  , text := [] }

/-- The parse of a page with title `NoSuffix Brand` and visible text
`© 2024 Something Base. All rights reserved.` (no meta tags, no scripts):
the copyright patterns contribute `Something Base` (pattern 1) and
`Something` (pattern 2), so the discovery-order candidate list is
`[NoSuffix Brand, Something Base, Something]`. -/
def docShellLike : Soup :=
  { title := some "NoSuffix Brand".data
  , metas := []
  , scripts := []
  , text := "© 2024 Something Base. All rights reserved.".data }

/-! ## Spec-modelled selection rules (for comparison with the code) -/

/-- Modelled from the spec: the recognized corporate-suffix list of §4.1(b)
(`Inc, Corp, LLC, Ltd, GmbH, AG, SA, SAS, SpA, BV, NV, Pty, PLC, Limited,
Corporation, Company, Incorporated`) — it does not contain `SE`. -/
def specCorporateSuffixes : List PyStr :=
  ["Inc".data, "Corp".data, "LLC".data, "Ltd".data, "GmbH".data, "AG".data,
   "SA".data, "SAS".data, "SpA".data, "BV".data, "NV".data, "Pty".data,
   "PLC".data, "Limited".data, "Corporation".data, "Company".data,
   "Incorporated".data]

/-- Modelled from the spec: "text ends with a recognized corporate suffix
(case-insensitive, optional trailing period)". -/
def spec_has_suffix (nm : PyStr) : Bool :=
  let lc := pyLower nm
  specCorporateSuffixes.any fun suf =>
    endsWithP (pyLower suf) lc || endsWithP (pyLower suf ++ ['.']) lc

/-- Modelled from the spec (claim C4): with no meta/structured signal,
`primary_entity` is the first candidate, scanning in candidates order, whose
text ends with a recognized suffix, else the first candidate in discovery
order (both read over the discovery-order candidate list). -/
def specPrimarySelect (cands : List PyStr) : Option PyStr :=
  match cands.find? spec_has_suffix with
  | some e => some e
  | none => cands.head?

/-! ## Concrete registry-candidate lists for the bias analysis -/

def leiCandOf (j : Option String) : LeiCand :=
  { lei_code := none, legal_name := none, jurisdiction := j
  , rank_position := none, weighted_score := none, entity_status := none }

/-- Ten candidates, 7 of them `US`. -/
def cs7of10 : List LeiCand :=
  List.replicate 7 (leiCandOf (some "US")) ++ List.replicate 3 (leiCandOf (some "GB"))

/-- Ten candidates, 5 of them `US`, 5 others. -/
def cs5of10 : List LeiCand :=
  List.replicate 5 (leiCandOf (some "US")) ++
    [leiCandOf (some "GB"), leiCandOf (some "DE"), leiCandOf (some "FR"),
     leiCandOf (some "JP"), leiCandOf (some "CN")]

/-! ## Concrete observation rows for the aggregation -/

/-- Rows are listed in the query's `created_at DESC` order. -/
def rowConf40 : DomainRow :=
  { batch_id := "b3", status := "success", company_name := some "A"
  , confidence_score := some 40, created_at := 3 }

def rowConfNull : DomainRow :=
  { batch_id := "b2", status := "success", company_name := some "B"
  , confidence_score := none, created_at := 2 }

def rowConf85 : DomainRow :=
  { batch_id := "b1", status := "success", company_name := some "C"
  , confidence_score := some 85, created_at := 1 }

/-- A null-confidence row more recent than a 0-confidence row. -/
def rowNull2 : DomainRow :=
  { batch_id := "b2", status := "success", company_name := some "X"
  , confidence_score := none, created_at := 2 }

def rowZero1 : DomainRow :=
  { batch_id := "b1", status := "success", company_name := some "Y"
  , confidence_score := some 0, created_at := 1 }

/-! ## Helper lemmas about the cleaning functions -/

theorem setOrder_nil {f : List PyStr → List PyStr} (hf : SetOrderOK f) :
    f [] = [] := by
  refine List.eq_nil_iff_forall_not_mem.mpr fun a ha => ?_
  exact absurd (((hf []).2 a).mp ha) (List.not_mem_nil a)

theorem clean_entity_name_bounds {v x : PyStr} (h : clean_entity_name v = some x) :
    3 ≤ x.length ∧ x.length ≤ 100 := by
  simp only [clean_entity_name] at h
  -- split_ifs discharges the three `none = some x` branches itself
  split_ifs at h with h0 h1 h2
  cases h
  omega

theorem lenGate_len {s x : PyStr} (h : lenGate s = some x) : 3 ≤ x.length := by
  simp only [lenGate] at h
  split_ifs at h with h1
  cases h
  omega

theorem clean_title_entity_len {t x : PyStr} (h : clean_title_entity t = some x) :
    3 ≤ x.length := by
  simp only [clean_title_entity] at h
  -- split_ifs discharges the `none = some x` branch itself
  split_ifs at h with h0
  exact lenGate_len h

theorem titleEntsOf_mem {o : Option PyStr} {x : PyStr} (h : x ∈ titleEntsOf o) :
    o.bind clean_title_entity = some x := by
  match o with
  | none => exact absurd h (List.not_mem_nil x)
  | some t =>
    simp only [titleEntsOf] at h
    match hc : clean_title_entity t with
    | some e =>
      rw [hc] at h
      simp only [List.mem_singleton] at h
      subst h
      simpa using hc
    | none => rw [hc] at h; exact absurd h (List.not_mem_nil x)

theorem metaStep_ents (acc : MetaAcc) (m : MetaTag) :
    (metaStep acc m).ents = acc.ents ∨
    ∃ v e, clean_entity_name v = some e ∧ (metaStep acc m).ents = acc.ents ++ [e] := by
  unfold metaStep
  by_cases h1 : (pyTruthyO (pyOrO m.name m.property) && pyTruthyO m.content) = true
  · rw [if_pos h1]
    by_cases h2 : (pyOrO m.name m.property).getD [] = "og:site_name".data
    · rw [if_pos h2]
      match hc : clean_entity_name (m.content.getD []) with
      | some e => exact Or.inr ⟨_, e, hc, rfl⟩
      | none => exact Or.inl rfl
    · rw [if_neg h2]; exact Or.inl rfl
  · rw [if_neg h1]; exact Or.inl rfl

theorem metaScan_ents_mem (ms : List MetaTag) :
    ∀ acc x, x ∈ (ms.foldl metaStep acc).ents →
      x ∈ acc.ents ∨ ∃ v, clean_entity_name v = some x := by
  induction ms with
  | nil => intro acc x h; exact Or.inl h
  | cons m ms ih =>
    intro acc x h
    rcases ih (metaStep acc m) x h with h2 | h2
    · rcases metaStep_ents acc m with he | ⟨v, e, hcv, he⟩
      · rw [he] at h2; exact Or.inl h2
      · rw [he] at h2
        rcases List.mem_append.mp h2 with h3 | h3
        · exact Or.inl h3
        · rw [List.mem_singleton] at h3
          subst h3
          exact Or.inr ⟨v, hcv⟩
    · exact Or.inr h2

theorem copyrightEntities_mem {t x : PyStr} (h : x ∈ copyrightEntities t) :
    ∃ v, clean_entity_name v = some x := by
  unfold copyrightEntities at h
  obtain ⟨v, _, hv⟩ := List.mem_filterMap.mp h
  match hc : clean_entity_name v with
  | some e =>
    simp only [hc] at hv
    split_ifs at hv with hgt
    · injection hv with he
      subst he
      exact ⟨v, hc⟩
  | none =>
    simp only [hc] at hv
    cases hv

/-! ## Claim theorems -/

/-- C1: for every parsed document (the BeautifulSoup parse boundary accepts
every `(html, domain)` input pair, including empty, truncated and non-markup
strings, without raising), `extract_from_html` returns normally — the one
raising path, `json.loads` of an empty JSON-LD script's `None` string, is
unreachable because all script elements are decomposed first — and on the
empty/unparseable parse it returns a result with empty `entities` and null
`primary_entity`. -/
theorem C1_extract_total_and_degrades :
    (∀ (loads : PyStr → Option Jsn) (setOrder : List PyStr → List PyStr)
       (doc : Soup) (domain : String),
       ∃ r, extract_from_html loads setOrder doc domain = Except.ok r) ∧
    (∀ (loads : PyStr → Option Jsn) (setOrder : List PyStr → List PyStr),
       SetOrderOK setOrder → ∀ domain : String,
       ∃ r, extract_from_html loads setOrder emptySoup domain = Except.ok r ∧
         r.entities = [] ∧ r.primary_entity = none) := by
  constructor
  · intro loads setOrder doc domain
    exact ⟨_, extract_from_html_eq loads setOrder doc domain⟩
  · intro loads setOrder hso domain
    refine ⟨_, extract_from_html_eq loads setOrder emptySoup domain, ?_, ?_⟩
    · show dedupedEntities setOrder emptySoup = []
      have h0 : dedupedEntities setOrder emptySoup = setOrder [] := rfl
      rw [h0, setOrder_nil hso]
    · show primaryOf setOrder emptySoup = none
      have h0 : primaryOf setOrder emptySoup = selectPrimary none (setOrder []) := rfl
      rw [h0, setOrder_nil hso]
      rfl

/-- C1 witness: concrete instantiation of the empty-document part. -/
theorem C1_witness :
    ∃ r, extract_from_html loads0 pySetKeepFirst emptySoup "example.com" = Except.ok r ∧
      r.entities = [] ∧ r.primary_entity = none :=
  C1_extract_total_and_degrades.2 loads0 pySetKeepFirst pySetKeepFirst_ok "example.com"

/-- C2 (counterexample to the claim as stated): a title of 101 `A`
characters survives `_clean_title_entity` unchanged (that cleaner enforces
no upper length bound), so the returned candidate list contains a text of
length 101 > 100. -/
theorem C2_counterexample :
    (extract_from_html loads0 pySetKeepFirst docLongTitle "example.com").map
        (fun r => r.entities) = Except.ok [List.replicate 101 'A'] ∧
    (List.replicate 101 'A').length = 101 := by
  constructor
  · rfl
  · simp

/-- C2 (amended): every returned candidate has length ≥ 3, and every
candidate that did not come from the title cleaner also has length ≤ 100;
title-derived candidates are only bounded below (the meta and copyright
sources go through `_clean_entity_name`, which enforces both bounds, while
`_clean_title_entity` checks only `len > 2`). -/
theorem C2_candidate_length (loads : PyStr → Option Jsn)
    (setOrder : List PyStr → List PyStr) (doc : Soup) (domain : String)
    (hso : SetOrderOK setOrder) :
    ∃ r, extract_from_html loads setOrder doc domain = Except.ok r ∧
      ∀ x ∈ r.entities, 3 ≤ x.length ∧
        (x.length ≤ 100 ∨ (doc.title.map pyStrip).bind clean_title_entity = some x) := by
  refine ⟨_, extract_from_html_eq loads setOrder doc domain, ?_⟩
  intro x hx
  have hmem := ((hso _).2 x).mp hx
  have hraw : x ∈ rawEntities doc := (List.mem_filter.mp hmem).1
  unfold rawEntities at hraw
  rcases List.mem_append.mp hraw with h1 | h23
  · have hb := titleEntsOf_mem h1
    refine ⟨?_, Or.inr hb⟩
    cases hdt : doc.title.map pyStrip with
    | none => rw [hdt] at hb; cases hb
    | some t =>
      rw [hdt] at hb
      exact clean_title_entity_len (by simpa using hb)
  · rcases List.mem_append.mp h23 with h2 | h3
    · rcases metaScan_ents_mem doc.metas ⟨[], [], none⟩ x h2 with hnil | ⟨v, hv⟩
      · simp at hnil
      · obtain ⟨hlo, hhi⟩ := clean_entity_name_bounds hv
        exact ⟨hlo, Or.inl hhi⟩
    · obtain ⟨v, hv⟩ := copyrightEntities_mem h3
      obtain ⟨hlo, hhi⟩ := clean_entity_name_bounds hv
      exact ⟨hlo, Or.inl hhi⟩

/-- C2 witness: the amended theorem at the concrete long-title document. -/
theorem C2_witness :
    ∃ r, extract_from_html loads0 pySetKeepFirst docLongTitle "example.com" = Except.ok r ∧
      ∀ x ∈ r.entities, 3 ≤ x.length ∧
        (x.length ≤ 100 ∨ (docLongTitle.title.map pyStrip).bind clean_title_entity = some x) :=
  C2_candidate_length loads0 pySetKeepFirst docLongTitle "example.com" pySetKeepFirst_ok

/-- C3 (counterexample to the claim as stated): on a document carrying both
a meta `og:site_name` (`MetaBrand Inc`) and a JSON-LD Organization block
(`Acme GmbH`), the organization name does not set `primary_entity` (the meta
value does), does not even appear among the candidates, and
`structured_data`/`company_name` stay empty — the script elements are
decomposed before the JSON-LD scan, and even when that scan runs it assigns
`company_name`, not `primary_entity`. -/
theorem C3_counterexample :
    (extract_from_html loadsC3 pySetKeepFirst docC3 "acme.com").map
        (fun r => r.primary_entity) = Except.ok (some "MetaBrand Inc".data) ∧
    (extract_from_html loadsC3 pySetKeepFirst docC3 "acme.com").map
        (fun r => r.entities.contains "Acme GmbH".data) = Except.ok false ∧
    (extract_from_html loadsC3 pySetKeepFirst docC3 "acme.com").map
        (fun r => r.structured_data.length) = Except.ok 0 ∧
    (extract_from_html loadsC3 pySetKeepFirst docC3 "acme.com").map
        (fun r => r.company_name) = Except.ok none ∧
    some "MetaBrand Inc".data ≠ some "Acme GmbH".data := by
  refine ⟨rfl, rfl, rfl, rfl, by decide⟩

/-- C3 (amended): structured data never influences the result: every run
returns empty `structured_data`, null `company_name`, a candidate list drawn
only from the title, meta and copyright sources (`rawEntities`), and a
`primary_entity` equal to the meta-loop choice if set, else the
suffix-scan/first-element fallback over the returned candidates. -/
theorem C3_structured_data_inert (loads : PyStr → Option Jsn)
    (setOrder : List PyStr → List PyStr) (doc : Soup) (domain : String) :
    ∃ r, extract_from_html loads setOrder doc domain = Except.ok r ∧
      r.structured_data = [] ∧ r.company_name = none ∧
      r.entities = setOrder ((rawEntities doc).filter (fun s => !s.isEmpty)) ∧
      r.primary_entity = selectPrimary (metaScan doc.metas).primary r.entities :=
  ⟨_, extract_from_html_eq loads setOrder doc domain, rfl, rfl, rfl, rfl⟩

/-- C4 (counterexample to the claim as stated): on the document with title
`NoSuffix Brand` and copyright text `© 2024 Something Base. ...`, the
candidates in discovery order are
`[NoSuffix Brand, Something Base, Something]`, none of which ends in a
suffix from the claim's list — so the claim's rule selects the first
candidate `NoSuffix Brand` — yet the code returns `Something Base`, because
its suffix table also contains `SE` and its `endswith` test accepts the
bare ending `...se` of `Base`.  Moreover the claim's Shell prediction is
untenable: `Shell Global Solutions International B.V.` ends with no entry
of either suffix list (`BV` carries no internal period), under the code's
matcher or the claim's own rule. -/
theorem C4_counterexample :
    rawEntities docShellLike =
      ["NoSuffix Brand".data, "Something Base".data, "Something".data] ∧
    (extract_from_html loads0 pySetKeepFirst docShellLike "example.com").map
        (fun r => r.primary_entity) = Except.ok (some "Something Base".data) ∧
    specPrimarySelect ["NoSuffix Brand".data, "Something Base".data, "Something".data] =
      some "NoSuffix Brand".data ∧
    some "Something Base".data ≠ some "NoSuffix Brand".data ∧
    has_corporate_suffix "Shell Global Solutions International B.V.".data = false ∧
    spec_has_suffix "Shell Global Solutions International B.V.".data = false ∧
    specPrimarySelect ["Shell Brand".data,
      "Shell Global Solutions International B.V.".data] = some "Shell Brand".data := by
  refine ⟨rfl, rfl, rfl, by decide, by decide, by decide, by decide⟩

/-- C4 (amended): when the meta loop selected nothing, `primary_entity` is
the first element of the RETURNED (hash-set-ordered) candidate list whose
lower-cased text ends with a lower-cased entry of the code's suffix table —
which also contains `SE`, and matches bare endings with an optional trailing
period, so `B.V.` is not recognized — else the first element of the
returned list. -/
theorem C4_primary_selection (loads : PyStr → Option Jsn)
    (setOrder : List PyStr → List PyStr) (doc : Soup) (domain : String)
    (hmeta : (metaScan doc.metas).primary = none) :
    ∃ r, extract_from_html loads setOrder doc domain = Except.ok r ∧
      r.primary_entity = selectPrimary none r.entities ∧
      has_corporate_suffix "Shell Global Solutions International B.V.".data = false ∧
      ("SE".data ∈ corporate_suffixes ∧ "SE".data ∉ specCorporateSuffixes) := by
  refine ⟨_, extract_from_html_eq loads setOrder doc domain, ?_, by decide, by decide, by decide⟩
  show primaryOf setOrder doc = selectPrimary none (dedupedEntities setOrder doc)
  have h0 : primaryOf setOrder doc =
      selectPrimary (metaScan doc.metas).primary (dedupedEntities setOrder doc) := rfl
  rw [h0, hmeta]

/-- C4 witness: the amended theorem at the concrete no-meta document. -/
theorem C4_witness :
    ∃ r, extract_from_html loads0 pySetKeepFirst docShellLike "example.com" = Except.ok r ∧
      r.primary_entity = selectPrimary none r.entities ∧
      has_corporate_suffix "Shell Global Solutions International B.V.".data = false ∧
      ("SE".data ∈ corporate_suffixes ∧ "SE".data ∉ specCorporateSuffixes) :=
  C4_primary_selection loads0 pySetKeepFirst docShellLike "example.com" rfl

/-- C5 (counterexample to the claim as stated): `pySetRev` is a legitimate
`list(set(...))` iteration order, and under it the returned candidate list
of the Acme document is the REVERSE of the discovery order — order of first
occurrence is not preserved by `list(set(filter(None, entities)))`. -/
theorem C5_counterexample :
    SetOrderOK pySetRev ∧
    rawEntities docAcme = ["Acme Corp".data, "Acme Corporation".data] ∧
    (extract_from_html loads0 pySetRev docAcme "acme.com").map
        (fun r => r.entities) =
      Except.ok ["Acme Corporation".data, "Acme Corp".data] ∧
    (["Acme Corporation".data, "Acme Corp".data] : List PyStr) ≠
      ["Acme Corp".data, "Acme Corporation".data] :=
  ⟨pySetRev_ok, rfl, rfl, by decide⟩

/-- C5 (amended): the returned candidate list is deduplicated by exact
cleaned text with empty strings discarded — it has no duplicates and
contains exactly the non-empty discovered candidates — but its order is the
hash-set iteration order, not necessarily the order of first occurrence. -/
theorem C5_dedup_membership (loads : PyStr → Option Jsn)
    (setOrder : List PyStr → List PyStr) (doc : Soup) (domain : String)
    (hso : SetOrderOK setOrder) :
    ∃ r, extract_from_html loads setOrder doc domain = Except.ok r ∧
      r.entities.Nodup ∧
      ∀ x, x ∈ r.entities ↔ (x ∈ rawEntities doc ∧ x ≠ []) := by
  refine ⟨_, extract_from_html_eq loads setOrder doc domain, (hso _).1, ?_⟩
  intro x
  have h := (hso ((rawEntities doc).filter (fun s => !s.isEmpty))).2 x
  rw [List.mem_filter] at h
  refine Iff.trans h (and_congr_right fun _ => ?_)
  cases x <;> simp

/-- C5 witness: the amended theorem at the concrete Acme document under the
first-occurrence order. -/
theorem C5_witness :
    ∃ r, extract_from_html loads0 pySetKeepFirst docAcme "acme.com" = Except.ok r ∧
      r.entities.Nodup ∧
      ∀ x, x ∈ r.entities ↔ (x ∈ rawEntities docAcme ∧ x ≠ []) :=
  C5_dedup_membership loads0 pySetKeepFirst docAcme "acme.com" pySetKeepFirst_ok

/-- C8 (counterexample to the claim as stated): on the claim's exact HTML
the title candidate is `Acme Corp` — `_clean_title_entity` strips the
`Welcome to` phrase but nothing else — so the candidate list is
`[Acme Corp, Acme Corporation]`, not `[Acme, Acme Corporation]`; `Acme` is
not a candidate at all.  `primary_entity` is `Acme Corporation` as claimed. -/
theorem C8_counterexample :
    (extract_from_html loads0 pySetKeepFirst docAcme "acme.com").map
        (fun r => r.entities) = Except.ok ["Acme Corp".data, "Acme Corporation".data] ∧
    (extract_from_html loads0 pySetKeepFirst docAcme "acme.com").map
        (fun r => r.entities.contains "Acme".data) = Except.ok false ∧
    (extract_from_html loads0 pySetKeepFirst docAcme "acme.com").map
        (fun r => r.primary_entity) = Except.ok (some "Acme Corporation".data) ∧
    (["Acme Corp".data, "Acme Corporation".data] : List PyStr) ≠
      ["Acme".data, "Acme Corporation".data] := by
  refine ⟨rfl, rfl, rfl, by decide⟩

/-- C8 (amended): for the claim's HTML and domain `acme.com`, under every
`list(set(...))` order the candidate set is exactly
`{Acme Corp, Acme Corporation}` (the title candidate is `Acme Corp`, in
discovery order before the meta candidate), with no duplicates, and
`primary_entity = Acme Corporation` (chosen by the meta loop). -/
theorem C8_acme_scenario (loads : PyStr → Option Jsn)
    (setOrder : List PyStr → List PyStr) (hso : SetOrderOK setOrder) :
    ∃ r, extract_from_html loads setOrder docAcme "acme.com" = Except.ok r ∧
      (∀ x, x ∈ r.entities ↔ (x = "Acme Corp".data ∨ x = "Acme Corporation".data)) ∧
      r.entities.Nodup ∧
      r.primary_entity = some "Acme Corporation".data ∧
      rawEntities docAcme = ["Acme Corp".data, "Acme Corporation".data] := by
  refine ⟨_, extract_from_html_eq loads setOrder docAcme "acme.com", ?_,
    (hso _).1, rfl, rfl⟩
  intro x
  have h := (hso ((rawEntities docAcme).filter (fun s => !s.isEmpty))).2 x
  have hflt : (rawEntities docAcme).filter (fun s => !s.isEmpty) =
      ["Acme Corp".data, "Acme Corporation".data] := rfl
  rw [hflt] at h
  refine Iff.trans h ?_
  simp

/-- C8 witness: the amended theorem under the first-occurrence order. -/
theorem C8_witness :
    ∃ r, extract_from_html loads0 pySetKeepFirst docAcme "acme.com" = Except.ok r ∧
      (∀ x, x ∈ r.entities ↔ (x = "Acme Corp".data ∨ x = "Acme Corporation".data)) ∧
      r.entities.Nodup ∧
      r.primary_entity = some "Acme Corporation".data ∧
      rawEntities docAcme = ["Acme Corp".data, "Acme Corporation".data] :=
  C8_acme_scenario loads0 pySetKeepFirst pySetKeepFirst_ok

/-- Value of `biasAssessment` on a non-empty candidate list, as a single conditional. -/
theorem biasAssessment_analyze (cs : List LeiCand) (h : cs.isEmpty = false) :
    biasAssessment (analyze_geographic_bias cs) =
      some (if (usEntities cs : ℚ) > (cs.length : ℚ) * (3 / 5)
            then "High US bias detected" else "Balanced distribution") := by
  unfold analyze_geographic_bias
  rw [if_neg (by simp [h])]
  rfl

/-- C6 (counterexample to the claim as stated): with 7 `US` candidates of
10 the fraction exceeds 0.6, but the flag string the code produces is
`"High US bias detected"`, not the claim's `"High bias detected"`. -/
theorem C6_counterexample :
    biasAssessment (analyze_geographic_bias cs7of10) = some "High US bias detected" ∧
    some "High US bias detected" ≠ some "High bias detected" ∧
    (usEntities cs7of10 : ℚ) / (cs7of10.length : ℚ) > 3 / 5 := by
  have h7 : usEntities cs7of10 = 7 := by decide
  have hl7 : cs7of10.length = 10 := by decide
  refine ⟨?_, by decide, ?_⟩
  · rw [biasAssessment_analyze cs7of10 rfl, h7, hl7, if_pos (by norm_num)]
  · rw [h7, hl7]
    norm_num

/-- C6 (amended): for every non-empty candidate list the assessment is
`"High US bias detected"` exactly when the number of `US`-jurisdiction
candidates exceeds 0.6 times the total candidate count, and
`"Balanced distribution"` otherwise; 7 `US` of 10 is flagged, 5 `US` of 10
is balanced. -/
theorem C6_bias_threshold :
    (∀ cs : List LeiCand, cs ≠ [] →
      (biasAssessment (analyze_geographic_bias cs) = some "High US bias detected" ↔
        (usEntities cs : ℚ) > (cs.length : ℚ) * (3 / 5)) ∧
      (biasAssessment (analyze_geographic_bias cs) = some "Balanced distribution" ↔
        ¬((usEntities cs : ℚ) > (cs.length : ℚ) * (3 / 5)))) ∧
    biasAssessment (analyze_geographic_bias cs7of10) = some "High US bias detected" ∧
    biasAssessment (analyze_geographic_bias cs5of10) = some "Balanced distribution" := by
  have h7 : usEntities cs7of10 = 7 := by decide
  have hl7 : cs7of10.length = 10 := by decide
  have h5 : usEntities cs5of10 = 5 := by decide
  have hl5 : cs5of10.length = 10 := by decide
  refine ⟨?_,
    by rw [biasAssessment_analyze cs7of10 rfl, h7, hl7, if_pos (by norm_num)],
    by rw [biasAssessment_analyze cs5of10 rfl, h5, hl5, if_neg (by norm_num)]⟩
  intro cs hcs
  have hne : cs.isEmpty = false := by
    cases cs
    · exact absurd rfl hcs
    · rfl
  rw [biasAssessment_analyze cs hne]
  by_cases hc : (usEntities cs : ℚ) > (cs.length : ℚ) * (3 / 5)
  · rw [if_pos hc]
    refine ⟨⟨fun _ => hc, fun _ => rfl⟩, ?_, ?_⟩
    · intro heq
      exact absurd (Option.some.inj heq) (by decide)
    · intro hn
      exact absurd hc hn
  · rw [if_neg hc]
    refine ⟨⟨?_, ?_⟩, ⟨fun _ => hc, fun _ => rfl⟩⟩
    · intro heq
      exact absurd (Option.some.inj heq) (by decide)
    · intro h5
      exact absurd h5 hc

/-- C6 witness: the amended iff at the concrete 7-of-10 list. -/
theorem C6_witness :
    (biasAssessment (analyze_geographic_bias cs7of10) = some "High US bias detected" ↔
      (usEntities cs7of10 : ℚ) > (cs7of10.length : ℚ) * (3 / 5)) ∧
    (biasAssessment (analyze_geographic_bias cs7of10) = some "Balanced distribution" ↔
      ¬((usEntities cs7of10 : ℚ) > (cs7of10.length : ℚ) * (3 / 5))) :=
  C6_bias_threshold.1 cs7of10 (by decide)

/-- Python `max(rows, key=...)` as a fold: the result is a member, its key is maximal,
and — on a list sorted by `created_at` descending — among the rows attaining
the maximal key it is the most recent one (Python's `max` keeps the first
maximal element). -/
theorem bestFold_spec (rs : List DomainRow) :
    ∀ r : DomainRow,
      (rs.foldl (fun b x => if rowKey x > rowKey b then x else b) r ∈ r :: rs) ∧
      (∀ y ∈ r :: rs,
        rowKey y ≤ rowKey (rs.foldl (fun b x => if rowKey x > rowKey b then x else b) r)) ∧
      (List.Pairwise (fun a b => b.created_at ≤ a.created_at) (r :: rs) →
        ∀ y ∈ r :: rs,
          rowKey y = rowKey (rs.foldl (fun b x => if rowKey x > rowKey b then x else b) r) →
          y.created_at ≤
            (rs.foldl (fun b x => if rowKey x > rowKey b then x else b) r).created_at) := by
  induction rs with
  | nil =>
    intro r
    refine ⟨List.mem_cons_self r [], ?_, ?_⟩
    · intro y hy
      rw [List.mem_singleton] at hy
      subst hy
      exact le_refl _
    · intro _ y hy _
      rw [List.mem_singleton] at hy
      subst hy
      exact le_refl _
  | cons x rs ih =>
    intro r
    simp only [List.foldl_cons]
    by_cases hxr : rowKey x > rowKey r
    · rw [if_pos hxr]
      obtain ⟨hmem, hmax, htie⟩ := ih x
      refine ⟨List.mem_cons_of_mem r hmem, ?_, ?_⟩
      · intro y hy
        rcases List.mem_cons.mp hy with h | h
        · subst h
          exact le_trans (le_of_lt hxr) (hmax x (List.mem_cons_self x rs))
        · exact hmax y h
      · intro hp y hy hkey
        rcases List.mem_cons.mp hy with h | h
        · subst h
          have hlt : rowKey y < rowKey (rs.foldl _ x) :=
            lt_of_lt_of_le hxr (hmax x (List.mem_cons_self x rs))
          exact absurd hkey (ne_of_lt hlt)
        · exact htie hp.of_cons y h hkey
    · rw [if_neg hxr]
      obtain ⟨hmem, hmax, htie⟩ := ih r
      have hxle : rowKey x ≤ rowKey r := not_lt.mp hxr
      refine ⟨?_, ?_, ?_⟩
      · rcases List.mem_cons.mp hmem with h | h
        · exact List.mem_cons.mpr (Or.inl h)
        · exact List.mem_cons_of_mem r (List.mem_cons_of_mem x h)
      · intro y hy
        rcases List.mem_cons.mp hy with h | h
        · subst h
          exact hmax y (List.mem_cons_self y rs)
        · rcases List.mem_cons.mp h with h2 | h2
          · subst h2
            exact le_trans hxle (hmax r (List.mem_cons_self r rs))
          · exact hmax y (List.mem_cons_of_mem r h2)
      · intro hp y hy hkey
        have hp1 := List.pairwise_cons.mp hp
        have hpr : List.Pairwise (fun a b => b.created_at ≤ a.created_at) (r :: rs) :=
          List.pairwise_cons.mpr
            ⟨fun b hb => hp1.1 b (List.mem_cons_of_mem x hb), hp1.2.of_cons⟩
        rcases List.mem_cons.mp hy with h | h
        · subst h
          exact htie hpr y (List.mem_cons_self y rs) hkey
        · rcases List.mem_cons.mp h with h2 | h2
          · subst h2
            have hrle : rowKey r ≤ rowKey (rs.foldl _ r) :=
              hmax r (List.mem_cons_self r rs)
            have hkr : rowKey r = rowKey (rs.foldl _ r) :=
              le_antisymm hrle (hkey ▸ hxle)
            have hcr := htie hpr r (List.mem_cons_self r rs) hkr
            exact le_trans (hp1.1 y (List.mem_cons_self y rs)) hcr
          · exact htie hpr y (List.mem_cons_of_mem r h2) hkey

/-- C7 (counterexample to the claim as stated): with a null-confidence row
more recent than a 0-confidence row, `max(..., key=confidence_score or 0)`
ties null against 0 and keeps the more recent null row, so the best record's
confidence is null although not all scores are null — while the spec's
argmax-over-non-null rule selects the 0-confidence record. -/
theorem C7_counterexample :
    (best_result [rowNull2, rowZero1]).bind (fun r => r.confidence_score) = none ∧
    (specBest [rowNull2, rowZero1]).bind (fun r => r.confidence_score) = some 0 ∧
    best_result [rowNull2, rowZero1] ≠ specBest [rowNull2, rowZero1] ∧
    ¬(∀ y ∈ [rowNull2, rowZero1], y.confidence_score = none) ∧
    List.Pairwise (fun a b : DomainRow => b.created_at ≤ a.created_at)
      [rowNull2, rowZero1] := by
  refine ⟨rfl, rfl, by decide, ?_, ?_⟩
  · intro hall
    exact absurd (hall rowZero1 (by simp)) (by decide)
  · refine List.Pairwise.cons ?_ (List.pairwise_singleton _ _)
    intro b hb
    rw [List.mem_singleton] at hb
    subst hb
    decide

/-- C7 (amended): on the non-empty query result (sorted most-recent-first),
the selected best record is a member whose key `confidence_score or 0` is
maximal, ties are broken toward the most recent `created_at`, and when every
confidence is null the best record's confidence is null (a null score ties
with a 0 score, so a more recent null row can win over a 0-confidence row);
for confidences `[40, null, 85]` the best confidence is 85. -/
theorem C7_best_of_aggregation :
    (∀ (r0 : DomainRow) (rs : List DomainRow),
      List.Pairwise (fun a b => b.created_at ≤ a.created_at) (r0 :: rs) →
      ∃ b, best_result (r0 :: rs) = some b ∧ b ∈ r0 :: rs ∧
        (∀ y ∈ r0 :: rs, rowKey y ≤ rowKey b) ∧
        (∀ y ∈ r0 :: rs, rowKey y = rowKey b → y.created_at ≤ b.created_at) ∧
        ((∀ y ∈ r0 :: rs, y.confidence_score = none) → b.confidence_score = none)) ∧
    (best_result [rowConf40, rowConfNull, rowConf85]).bind
      (fun r => r.confidence_score) = some 85 := by
  constructor
  · intro r0 rs hp
    obtain ⟨hmem, hmax, htie⟩ := bestFold_spec rs r0
    exact ⟨_, rfl, hmem, hmax, htie hp, fun hall => hall _ hmem⟩
  · rfl

/-- C7 witness: the amended theorem at the concrete `[40, null, 85]` rows. -/
theorem C7_witness :
    ∃ b, best_result [rowConf40, rowConfNull, rowConf85] = some b ∧
      b ∈ [rowConf40, rowConfNull, rowConf85] ∧
      (∀ y ∈ [rowConf40, rowConfNull, rowConf85], rowKey y ≤ rowKey b) ∧
      (∀ y ∈ [rowConf40, rowConfNull, rowConf85],
        rowKey y = rowKey b → y.created_at ≤ b.created_at) ∧
      ((∀ y ∈ [rowConf40, rowConfNull, rowConf85], y.confidence_score = none) →
        b.confidence_score = none) :=
  C7_best_of_aggregation.1 rowConf40 [rowConfNull, rowConf85] (by
    refine List.Pairwise.cons ?_ (List.Pairwise.cons ?_ (List.pairwise_singleton _ _))
    · intro b hb
      rcases List.mem_cons.mp hb with h | h
      · subst h; decide
      · rw [List.mem_singleton] at h; subst h; decide
    · intro b hb
      rw [List.mem_singleton] at hb; subst hb; decide)

/-- C9: for every collaborator outcome that is an exception/timeout
(`apiFailure`), an invalid response object, an empty response, or a payload
on which `json.loads` fails (both on the brace-delimited fragment and on
the whole text), `extract_entities` returns a result whose `entities` list
is empty; the embedding is a total function — every internal raise is
caught and becomes an error-dict return, so no exception escapes. -/
theorem C9_llm_failure_isolation (loads : String → Option Jsn) (tc : String) :
    (∀ m, (extract_entities loads true tc (.apiFailure m)).entities = []) ∧
    (extract_entities loads true tc .invalid).entities = [] ∧
    (∀ s, braceSpan s.data = none → loads s = none →
      (extract_entities loads true tc (.success s)).entities = []) ∧
    (∀ s sub, braceSpan s.data = some sub → loads (String.mk sub) = none →
      (extract_entities loads true tc (.success s)).entities = []) ∧
    braceSpan "".data = none := by
  refine ⟨fun m => rfl, rfl, ?_, ?_, rfl⟩
  · intro s h1 h2
    simp only [extract_entities, h1, h2]
    rfl
  · intro s sub h1 h2
    simp only [extract_entities, h1, h2]
    rfl

/-- C9 witness: concrete failing collaborator outcomes. -/
theorem C9_witness :
    (extract_entities (fun _ => none) true "some page text"
      (.apiFailure "timeout")).entities = [] ∧
    (extract_entities (fun _ => none) true "some page text"
      (.success "I am not JSON")).entities = [] ∧
    (extract_entities (fun _ => none) true "some page text"
      (.success "")).entities = [] := by
  obtain ⟨h1, _, h3, _, _⟩ := C9_llm_failure_isolation (fun _ => none) "some page text"
  exact ⟨h1 "timeout", h3 "I am not JSON" rfl rfl, h3 "" rfl rfl⟩

/-- C10: `generate_domain_hash` is a pure function of the lower-cased,
trimmed domain string, so equal normalized inputs give equal keys;
on the concrete pairs, `Shell.COM ` (normalizing to `shell.com`) collides
with `shell.com`, and `shell.com` / `shell.co` give different MD5 digests. -/
theorem C10_identity_key :
    (∀ d1 d2 : String, pyLower (pyStrip d1.data) = pyLower (pyStrip d2.data) →
      generate_domain_hash d1 = generate_domain_hash d2) ∧
    generate_domain_hash "Shell.COM " = generate_domain_hash "shell.com" ∧
    generate_domain_hash "shell.com" ≠ generate_domain_hash "shell.co" := by
  refine ⟨?_, ?_, ?_⟩
  · intro d1 d2 h
    unfold generate_domain_hash
    rw [h]
  · decide
  · decide

/-- C10 witness: the determinism part applied at the concrete pair. -/
theorem C10_witness :
    generate_domain_hash "Shell.COM " = generate_domain_hash "shell.com" :=
  C10_identity_key.1 "Shell.COM " "shell.com" (by decide)
